import Mathlib

/-!
Verification development for the `nuxt-graphql-client` module.

We give a shallow embedding of the module's configuration resolution
(`src/module.ts` `setup`), document filtering (`allowDocument`), codegen
config preparation (`src/generate.ts` `prepareConfig` and the schema-stitching
variant's `prepareConfig`/`prepareSchemas`), and the runtime composables
(`useGqlToken`, `useGqlHeaders`, `useAsyncGql` routing, and the shared
GraphQL error slot), and prove the specified properties about them.

JavaScript values of type `string | undefined` are modelled as `Option String`
(`none` = `undefined`/absent); JS truthiness (where the empty string is falsy)
is modelled explicitly.
-/

set_option autoImplicit false

namespace NuxtGql

/-- JS string-or-undefined: `none` models `undefined`/`null`/absent. -/
abbrev JStr := Option String

/-- JS truthiness of a possibly-undefined string: `undefined` and `""` are falsy. -/
def truthy : JStr → Bool
  | none => false
  | some s => s != ""

/-- JS `a || b` for string-valued operands. -/
def jsOr (a b : JStr) : JStr := if truthy a then a else b

/-- First-match association-list lookup (JS property access on a plain object). -/
def hlookup (k : String) : List (String × String) → Option String
  | [] => none
  | p :: t => if k = p.1 then some p.2 else hlookup k t

/-- JS object spread `{ ...a, ...b }` on string maps: keys of `b` override those
of `a`. (Represented so that `hlookup` returns `b`'s value when present.) -/
def spreadMerge (a b : List (String × String)) : List (String × String) :=
  a.filter (fun p => (hlookup p.1 b).isNone) ++ b

/-- Whether the first list is an initial segment of the second. -/
def initialSegOf : List Char → List Char → Bool
  | [], _ => true
  | _ :: _, [] => false
  | a :: as, b :: bs => a == b && initialSegOf as bs

/-- Decides whether `sub` occurs contiguously inside `l` (JS `String.includes`). -/
def subOccurs (sub : List Char) : List Char → Bool
  | [] => sub.isEmpty
  | c :: t => initialSegOf sub (c :: t) || subOccurs sub t

/-- JS `s.includes(sub)`. -/
def strIncludes (s sub : String) : Bool := subOccurs sub.data s.data

/-! ## Config resolver (`src/module.ts`, `setup`) -/

/-- The `token` field of a user-supplied client config: absent, a bare string,
or a `TokenOpts` object `{name?, type?, value?}`. -/
inductive TokenIn where
  | undef
  | str (s : String)
  | obj (name : JStr) (ty : JStr) (value : JStr)
deriving Repr, DecidableEq

/-- A client's `headers` option: a plain header map with an optional nested
`serverOnly` sub-mapping. -/
structure Headers where
  base : List (String × String) := []
  serverOnly : Option (List (String × String)) := none
deriving Repr, DecidableEq

/-- User-supplied client config object (`GqlClient` in `types.d.ts`). -/
structure GqlClientObj where
  host : JStr := none
  clientHost : JStr := none
  schema : JStr := none
  token : TokenIn := .undef
  retainToken : Bool := false
  proxyCookies : Option Bool := none
  headers : Option Headers := none
deriving Repr, DecidableEq

/-- An entry of `config.clients`: either a bare host string or a config object. -/
inductive ClientIn where
  | str (s : String)
  | obj (o : GqlClientObj)
deriving Repr, DecidableEq

/-- The resolved `token` sub-object of the descriptor built by `setup`
(value/name present only when truthy, `type` always a string). -/
structure TokenOut where
  value : JStr
  name : JStr
  ty : String
deriving Repr, DecidableEq

/-- Resolved client descriptor (`conf` in `setup`, module.ts lines 89-100). -/
structure GqlClientOut where
  host : String
  clientHost : JStr
  schema : JStr
  token : TokenOut
  retainToken : Bool
  proxyCookies : Bool
  headers : Option Headers
deriving Repr, DecidableEq

/-- JS `String.prototype.toUpperCase` (character-wise upper-casing, as applied
to client names). -/
def jsUpper (s : String) : String := ⟨s.data.map Char.toUpper⟩

/-- Environment-variable name for client `k`: the client named `default` uses
the unsuffixed `GQL_*` variable, any other client the upper-cased client name,
e.g. `GQL_BLOG_HOST`. -/
def envKey (k suffix : String) : String :=
  if k = "default" then "GQL_" ++ suffix else "GQL_" ++ jsUpper k ++ "_" ++ suffix

/-- `typeof v === 'string' ? v : v?.host`. -/
def userHost : ClientIn → JStr
  | .str s => some s
  | .obj o => o.host

/-- `typeof v !== 'string' && v.clientHost`. -/
def userClientHost : ClientIn → JStr
  | .str _ => none
  | .obj o => o.clientHost

/-- `typeof v !== 'string' && ((typeof v?.token === 'object' && v.token?.value)
|| (typeof v?.token === 'string' && v.token))`. -/
def userTokenValue : ClientIn → JStr
  | .str _ => none
  | .obj o => match o.token with
    | .obj _ _ v => v
    | .str s => some s
    | .undef => none

/-- `typeof v !== 'string' && typeof v?.token === 'object' && v.token.name`. -/
def userTokenName : ClientIn → JStr
  | .str _ => none
  | .obj o => match o.token with
    | .obj n _ _ => n
    | _ => none

/-- `(typeof v !== 'string' && typeof v?.token === 'object' && v?.token?.type
!== undefined) ? v?.token?.type : 'Bearer'`. -/
def resolvedTokenType : ClientIn → String
  | .str _ => "Bearer"
  | .obj o => match o.token with
    | .obj _ (some t) _ => t
    | _ => "Bearer"

/-- `typeof v !== 'string' && v?.schema`. -/
def userSchema : ClientIn → JStr
  | .str _ => none
  | .obj o => o.schema

/-- The `headers` carried through the `...v` spread into `conf`. -/
def userHeaders : ClientIn → Option Headers
  | .str _ => none
  | .obj o => o.headers

/-- `typeof v !== 'string' && v?.retainToken`. -/
def userRetainToken : ClientIn → Bool
  | .str _ => false
  | .obj o => o.retainToken

/-- The user's `proxyCookies` flag, when defined. -/
def userProxyCookies : ClientIn → Option Bool
  | .str _ => none
  | .obj o => o.proxyCookies

/-- `const host = runtimeHost || (typeof v === 'string' ? v : v?.host)`. -/
def mergedHost (env : String → JStr) (k : String) (v : ClientIn) : JStr :=
  jsOr (env (envKey k "HOST")) (userHost v)

/-- `const clientHost = runtimeClientHost || (typeof v !== 'string' && v.clientHost)`. -/
def mergedClientHost (env : String → JStr) (k : String) (v : ClientIn) : JStr :=
  jsOr (env (envKey k "CLIENT_HOST")) (userClientHost v)

/-- `const token = runtimeToken || (...)`. -/
def mergedToken (env : String → JStr) (k : String) (v : ClientIn) : JStr :=
  jsOr (env (envKey k "TOKEN")) (userTokenValue v)

/-- `const tokenName = runtimeTokenName || (...) || 'Authorization'`. -/
def mergedTokenName (env : String → JStr) (k : String) (v : ClientIn) : JStr :=
  jsOr (env (envKey k "TOKEN_NAME")) (jsOr (userTokenName v) (some "Authorization"))

/-- The error thrown for a client with no resolved host. -/
def hostError (k : String) : String := "GraphQL client (" ++ k ++ ") is missing it's host."

/-- The descriptor `conf` built for client `k` (module.ts lines 89-100), as
produced when the merged host is truthy. `fsExists` models `existsSync`,
`resolve` models `srcResolver.resolve`. -/
def resolvedConf (env : String → JStr) (fsExists : String → Bool)
    (resolve : String → String) (k : String) (v : ClientIn) : GqlClientOut :=
  let clientHost := mergedClientHost env k v
  let token := mergedToken env k v
  let tokenName := mergedTokenName env k v
  let schemaResolved : JStr := match userSchema v with
    | some s => if s = "" then none else some (resolve s)
    | none => none
  { host := (mergedHost env k v).getD ""
    clientHost := if truthy clientHost then clientHost else userClientHost v
    schema := match schemaResolved with
      | some p => if fsExists p then some p else userSchema v
      | none => userSchema v
    token := {
      value := if truthy token then token else none
      name := if truthy tokenName then tokenName else none
      ty := resolvedTokenType v }
    retainToken := userRetainToken v
    proxyCookies := (userProxyCookies v).getD true
    headers := userHeaders v }

/-- One iteration of the `setup` client loop (module.ts lines 64-100): resolve
the descriptor `conf` for client `k`, or throw when no host is found. -/
def resolveClient (env : String → JStr) (fsExists : String → Bool)
    (resolve : String → String) (k : String) (v : ClientIn) :
    Except String GqlClientOut :=
  if truthy (mergedHost env k v) then .ok (resolvedConf env fsExists resolve k v)
  else .error (hostError k)

/-- The `for (const [k, v] of Object.entries(config.clients))` loop: resolves
every client in order, keeping the input entry alongside the descriptor,
throwing at the first client with no host. -/
def resolveClients (env : String → JStr) (fsExists : String → Bool)
    (resolve : String → String) :
    List (String × ClientIn) → Except String (List (String × ClientIn × GqlClientOut))
  | [] => .ok []
  | (k, v) :: rest =>
    match resolveClient env fsExists resolve k v with
    | .error e => .error e
    | .ok c =>
      match resolveClients env fsExists resolve rest with
      | .error e => .error e
      | .ok tl => .ok ((k, v, c) :: tl)

/-- The implicit `default` client synthesized when zero clients are configured
(module.ts line 57). -/
def implicitDefault (host : String) (clientHost : JStr) : ClientIn :=
  if truthy clientHost then .obj { host := some host, clientHost := clientHost }
  else .str host

/-- Client resolution performed by `setup` (module.ts lines 47-113): resolve
the explicitly configured clients, or fall back to a single implicit
`default` client driven by `GQL_HOST` when none are configured. `pubHost` and
`pubClientHost` model `runtimeConfig.public.GQL_HOST` / `GQL_CLIENT_HOST`. -/
def setupEntries (env : String → JStr) (fsExists : String → Bool)
    (resolve : String → String) (pubHost pubClientHost : JStr)
    (clients : List (String × ClientIn)) :
    Except String (List (String × ClientIn × GqlClientOut)) :=
  if clients.isEmpty then
    let host := jsOr (env "GQL_HOST") pubHost
    let clientHost := jsOr (env "GQL_CLIENT_HOST") pubClientHost
    if truthy host then
      resolveClients env fsExists resolve [("default", implicitDefault (host.getD "") clientHost)]
    else .error "GQL_HOST is not set in public runtimeConfig"
  else resolveClients env fsExists resolve clients

/-- `config.clients` after `setup`: the resolved descriptors. -/
def configClients (env : String → JStr) (fsExists : String → Bool)
    (resolve : String → String) (pubHost pubClientHost : JStr)
    (clients : List (String × ClientIn)) :
    Except String (List (String × GqlClientOut)) :=
  (setupEntries env fsExists resolve pubHost pubClientHost clients).map
    (List.map fun p => (p.1, p.2.2))

/-- Token stripping for the public runtime config (module.ts lines 106-112):
when the resolved token has a value and the user did not set `retainToken`,
the public copy's token value is set to `undefined`. -/
def stripToken (v : ClientIn) (c : GqlClientOut) : GqlClientOut :=
  if truthy c.token.value && !(userRetainToken v) then
    { c with token := { c.token with value := none } }
  else c

/-- `runtimeConfig.public['graphql-client'].clients` after `setup`: the
client-exposed configuration object. -/
def publicClients (env : String → JStr) (fsExists : String → Bool)
    (resolve : String → String) (pubHost pubClientHost : JStr)
    (clients : List (String × ClientIn)) :
    Except String (List (String × GqlClientOut)) :=
  (setupEntries env fsExists resolve pubHost pubClientHost clients).map
    (List.map fun p => (p.1, stripToken p.2.1 p.2.2))

/-! ## Document discovery and filtering (`src/module.ts`) -/

/-- JS `String.prototype.toLowerCase` (character-wise lower-casing). -/
def jsLower (s : String) : String := ⟨s.data.map Char.toLower⟩

/-- Whether `s` ends with `suffix` (JS `endsWith` / regex `$` anchoring). -/
def endsWithC (s suffix : String) : Bool := initialSegOf suffix.data.reverse s.data.reverse

/-- Splitting a character list at `/` (JS `split('/')`). -/
def splitSegs : List Char → List (List Char)
  | [] => [[]]
  | c :: t =>
    let r := splitSegs t
    if c = '/' then [] :: r
    else match r with
      | [] => [[c]]
      | h :: tl => (c :: h) :: tl

/-- The last `/`-separated segment of a path (the filename). -/
def lastSegment (f : String) : String := ⟨(splitSegs f.data).getLastD []⟩

/-- `f.match(/([^\/]+)\.(gql|graphql)$/)?.[0]`: the whole filename when it ends
in `.gql`/`.graphql` with a non-empty stem, else `undefined`. -/
def gqlFileMatch (f : String) : Option String :=
  let seg := lastSegment f
  if (endsWithC seg ".gql" && seg.length > 4)
      || (endsWithC seg ".graphql" && seg.length > 8)
  then some seg else none

/-- `allowDocument` (module.ts lines 202-206): drops files whose matched
`.gql`/`.graphql` filename contains `schema` case-insensitively, and zero-byte
files (`size` models `statSync(...).size`). -/
def allowDocument (f : String) (size : Nat) : Bool :=
  let isSchema := match gqlFileMatch f with
    | some m => strIncludes (jsLower m) "schema"
    | none => false
  !isSchema && size != 0

/-- A candidate file on disk: path and size in bytes. -/
structure DocFile where
  path : String
  size : Nat
deriving Repr, DecidableEq

/-- Modelled from the spec: `resolveFiles(path, ['**/*.{gql,graphql}',
'!**/schemas'], ...)` from `@nuxt/kit` — the external glob returns the files
whose filename matches `*.{gql,graphql}` and that do not lie under a directory
named `schemas`. -/
def resolveFilesModel (cands : List DocFile) : List DocFile :=
  cands.filter (fun d =>
    (gqlFileMatch d.path).isSome && !((splitSegs d.path.data).contains "schemas".data))

/-- The document set built by `generateGqlTypes` (module.ts lines 130-135):
discovered files filtered through `allowDocument`. -/
def generateDocuments (cands : List DocFile) : List DocFile :=
  (resolveFilesModel cands).filter (fun d => allowDocument d.path d.size)

/-! ## Codegen config preparation (`src/generate.ts`) -/

/-- Whitespace characters removed by JS `String.prototype.trim`. -/
def isJsWS (c : Char) : Bool := c = ' ' || c = '\t' || c = '\n' || c = '\r'

/-- JS `s.trim()`. -/
def jsTrim (s : String) : String :=
  ⟨((s.data.dropWhile isJsWS).reverse.dropWhile isJsWS).reverse⟩

/-- The auth header value: `` `${type} ${value}` ``.trim() (generate.ts line 23). -/
def authHeaderValue (ty value : String) : String := jsTrim (ty ++ " " ++ value)

/-- A schema entry handed to the codegen engine: either a plain string (schema
file path or bare host URL) or a host with introspection headers. -/
inductive SchemaIn where
  | str (s : String)
  | hostHeaders (host : String) (headers : List (String × String))
deriving Repr, DecidableEq

/-- `...(token && { [v.token.name]: token })`: the auth header entry, absent
when the token value — or the trimmed header value — is falsy. -/
def tokenHeaderEntry (v : GqlClientOut) : List (String × String) :=
  if truthy v.token.value then
    let t := authHeaderValue v.token.ty (v.token.value.getD "")
    if t = "" then [] else [(v.token.name.getD "undefined", t)]
  else []

/-- `{ ...(v?.headers && { ...v.headers, ...serverHeaders }), ...(token && ...) }`:
the introspection headers built for one client; after the `serverOnly` deletion
the spread of `v.headers` contributes only the base entries, with the
`serverOnly` entries and then the auth header merged over them. -/
def introspectionHeaders (v : GqlClientOut) : List (String × String) :=
  spreadMerge
    (match v.headers with
      | some h => spreadMerge h.base (h.serverOnly.getD [])
      | none => [])
    (tokenHeaderEntry v)

/-- The in-place `delete v.headers.serverOnly` (generate.ts line 26). -/
def deleteServerOnly (v : GqlClientOut) : GqlClientOut :=
  { v with headers := v.headers.map (fun h => { h with serverOnly := none }) }

/-- One client's schema entry together with the client object as left behind
(`prepareConfig` in `src/generate.ts`, lines 18-31); the JS code mutates `v`
in place, which we model by returning the updated client. -/
def prepareClientSchema (v : GqlClientOut) : SchemaIn × GqlClientOut :=
  if truthy v.schema then (.str (v.schema.getD ""), v)
  else if !truthy v.token.value && v.headers.isNone then (.str v.host, v)
  else (.hostHeaders v.host (introspectionHeaders v), deleteServerOnly v)

/-- `prepareConfig` (`src/generate.ts`): the schema list passed to the codegen
engine, and the shared `options.clients` map as left after the pass. -/
def prepareConfig : List (String × GqlClientOut) →
    List SchemaIn × List (String × GqlClientOut)
  | [] => ([], [])
  | (k, v) :: rest =>
    let p := prepareClientSchema v
    let r := prepareConfig rest
    (p.1 :: r.1, (k, p.2) :: r.2)

/-! ## Schema stitching (the stitching generate module) -/

/-- `/^(https?:)?\/\//.test(host)`. -/
def isRemoteUrl (s : String) : Bool :=
  initialSegOf "http://".data s.data || initialSegOf "https://".data s.data
    || initialSegOf "//".data s.data

/-- One client's entry in the stitching variant of `prepareConfig` (lines
66-89): additionally resolves and writes back `v.schema`. -/
def prepareClientSchemaStitch (resolve : String → String) (v : GqlClientOut) :
    SchemaIn × GqlClientOut :=
  if truthy v.schema then
    let r := resolve (v.schema.getD "")
    (.str r, { v with schema := some r })
  else if !truthy v.token.value && v.headers.isNone then (.str v.host, v)
  else (.hostHeaders v.host (introspectionHeaders v), deleteServerOnly v)

/-- The stitching variant of `prepareConfig`: schema entries keyed by client
name, plus the clients map as left after the pass. -/
def prepareConfigStitch (resolve : String → String) :
    List (String × GqlClientOut) →
      List (String × SchemaIn) × List (String × GqlClientOut)
  | [] => ([], [])
  | (k, v) :: rest =>
    let p := prepareClientSchemaStitch resolve v
    let r := prepareConfigStitch resolve rest
    ((k, p.1) :: r.1, (k, p.2) :: r.2)

/-- A GraphQL schema, modelled by its list of root field names — the part of
the external `GraphQLSchema` value the stitching properties are about. -/
abbrev GSchema := List String

/-- The root-field renaming `(_, fieldName) => k + '_' + fieldName` passed to
`RenameRootFields` for client `k` (line 45). -/
def prefixField (k f : String) : String := k ++ "_" ++ f

/-- Modelled from the spec: `wrapSchema` with the `RenameRootFields` transform
of the external `@graphql-tools/wrap` — renames every root field of the
wrapped schema when root-field prefixing is enabled. -/
def applyTransforms (withFieldPrefixing : Bool) (k : String) (s : GSchema) : GSchema :=
  if withFieldPrefixing then s.map (prefixField k) else s

/-- The JS string coercion of a schema entry (`'...' + v` in the error). -/
def schemaInText : SchemaIn → String
  | .str s => s
  | .hostHeaders _ _ => "[object Object]"

/-- `typeof v === 'string' ? v : v.host`. -/
def schemaInHost : SchemaIn → String
  | .str s => s
  | .hostHeaders h _ => h

/-- `typeof v === 'string' ? {} : v.headers`: the headers sent with a remote
introspection request. -/
def schemaInHeaders : SchemaIn → List (String × String)
  | .str _ => []
  | .hostHeaders _ hs => hs

/-- `prepareSchemas` (lines 26-63): resolve each client's schema — remote
introspection for URL hosts, local file loading otherwise, where a load
failure throws the explicit error naming the entry — applying per-client
root-field prefixing, and collect the subschemas in order. `introspect`
models the external remote-introspection executor and `loadLocal` the
external `loadSchema` file loader (`none` = failure, caught into `null`). -/
def prepareSchemas (introspect : String → List (String × String) → GSchema)
    (loadLocal : SchemaIn → Option GSchema) (withFieldPrefixing : Bool) :
    List (String × SchemaIn) → Except String (List GSchema)
  | [] => .ok []
  | (k, v) :: rest =>
    if isRemoteUrl (schemaInHost v) then
      let s := applyTransforms withFieldPrefixing k
        (introspect (schemaInHost v) (schemaInHeaders v))
      match prepareSchemas introspect loadLocal withFieldPrefixing rest with
      | .error e => .error e
      | .ok tl => .ok (s :: tl)
    else
      match loadLocal v with
      | none => .error ("Unable to load local schema file: " ++ schemaInText v)
      | some base =>
        let s := applyTransforms withFieldPrefixing k base
        match prepareSchemas introspect loadLocal withFieldPrefixing rest with
        | .error e => .error e
        | .ok tl => .ok (s :: tl)

/-- Modelled from the spec: `printSchema(stitchSchemas({subschemas, ...}))` —
the printed unified schema carries every subschema's (renamed) root fields. -/
def stitchPrint (l : List GSchema) : GSchema := l.flatten

/-- The un-renamed schema `prepareSchemas` obtains for one entry: remote
introspection for URL hosts, the locally loaded file otherwise. -/
def schemaBase (introspect : String → List (String × String) → GSchema)
    (loadLocal : SchemaIn → Option GSchema) (v : SchemaIn) : GSchema :=
  if isRemoteUrl (schemaInHost v) then introspect (schemaInHost v) (schemaInHeaders v)
  else (loadLocal v).getD []

/-! ## Runtime composables (`useGqlToken`, `useGqlHeaders`, `useAsyncGql`,
error slot) -/

/-- A captured GraphQL error (`GqlError` in `types.d.ts`). -/
structure GqlErrorVal where
  client : String
  status : Nat
  operation : String
  gqlErrors : List String
deriving Repr, DecidableEq

/-- The shared error state: the `useState('_gqlErrors')` slot plus whether a
user `onError` handler is registered on the gql state. -/
structure ErrState where
  slot : Option GqlErrorVal
  handlerSet : Bool
deriving Repr, DecidableEq

/-- Events against the shared error slot: a failing response (handled by the
`onResponseError` middleware installed by `useGql`) or a client-context
handler registration (`useGqlError`). -/
inductive ErrEvent where
  | fail (e : GqlErrorVal)
  | register
deriving Repr, DecidableEq

/-- One step of the error-slot machine, returning the new state and the list
of handler invocations the step performs: a failure overwrites the slot and
notifies the registered handler (if any) once; a registration installs the
handler and replays a previously captured error to it once. -/
def errStep (st : ErrState) : ErrEvent → ErrState × List GqlErrorVal
  | .fail e => ({ st with slot := some e }, if st.handlerSet then [e] else [])
  | .register =>
    ({ st with handlerSet := true },
      match st.slot with
      | some e => [e]
      | none => [])

/-- The `config` argument of `useGqlToken` (`GqlTokenConfig`): fields absent
unless supplied by the caller. -/
structure GqlTokenConfigIn where
  name : JStr := none
  ty : JStr := none
deriving Repr, DecidableEq

/-- The effective auth config of `useGqlToken`: `{ ...DEFAULT_AUTH,
...(clientConfig?.token?.name && {name}), ...(clientConfig?.token?.type !==
undefined && {type}), ...config }`, as `(name, type)`. -/
def effectiveAuth (clientTok : Option TokenOut) (cfg : GqlTokenConfigIn) :
    String × String :=
  let clientName : JStr := match clientTok with
    | some t => if truthy t.name then t.name else none
    | none => none
  let clientTy : JStr := match clientTok with
    | some t => some t.ty
    | none => none
  ((cfg.name.orElse (fun _ => clientName)).getD "Authorization",
   (cfg.ty.orElse (fun _ => clientTy)).getD "Bearer")

/-- The header patch applied by `useGqlToken`: `{ [config.name]: !token ?
undefined : `` `${config.type} ${token}` ``.trim() }`; a `none` value unsets
(removes) the header key from the client state. -/
def useGqlToken (clientTok : Option TokenOut) (cfg : GqlTokenConfigIn)
    (token : JStr) : String × Option String :=
  let a := effectiveAuth clientTok cfg
  (a.1, if truthy token then some (jsTrim (a.2 ++ " " ++ token.getD "")) else none)

/-- The second `setGqlState` patch of `useGqlHeaders` when `respectDefaults`
is set and the supplied header set is empty (runtime composables lines
130-137): re-apply the build-time client headers, merging `serverOnly`
entries only in server context, and delete `serverOnly` from the runtime
config object that was read. Returns the applied header patch and the client
headers object as left behind. -/
def useGqlHeadersDefaults (server : Bool) (clientHeaders : Option Headers) :
    List (String × String) × Option Headers :=
  match clientHeaders with
  | none => ([], none)
  | some h =>
    let serverHeaders := if server then h.serverOnly.getD [] else []
    (spreadMerge h.base serverHeaders, some { h with serverOnly := none })

/-- `Object.keys(GqlOperations).find(k => GqlOperations[k].includes(operation))
?? 'default'` (`useAsyncGql`): the owning client of a dispatched operation. -/
def operationClient (ops : List (String × List String)) (operation : String) : String :=
  match ops.find? (fun p => p.2.contains operation) with
  | some p => p.1
  | none => "default"

/-- `GqlInstance().handle(client)`: the transport instance a dispatched
operation runs on, looked up from the per-client runtime state. -/
def dispatchInstance (instances : String → Nat) (ops : List (String × List String))
    (operation : String) : Nat :=
  instances (operationClient ops operation)

/-! ## Helper lemmas -/

theorem initialSegOf_append_self (a b : List Char) : initialSegOf a (a ++ b) = true := by
  induction a with
  | nil => rfl
  | cons c t ih => simp [initialSegOf, ih]

theorem subOccurs_append_middle (a sub c : List Char) :
    subOccurs sub (a ++ sub ++ c) = true := by
  induction a with
  | nil =>
    cases sub with
    | nil =>
      cases c with
      | nil => rfl
      | cons x t => simp [subOccurs, initialSegOf]
    | cons s ss =>
      simp only [List.nil_append, List.cons_append, subOccurs, Bool.or_eq_true]
      exact Or.inl (initialSegOf_append_self (s :: ss) c)
  | cons x t ih =>
    simp only [List.cons_append, subOccurs, Bool.or_eq_true]
    exact Or.inr ih

/-- A string occurs inside any string built around it by concatenation. -/
theorem strIncludes_middle (a b c : String) : strIncludes (a ++ b ++ c) b = true := by
  simp only [strIncludes, String.data_append]
  exact subOccurs_append_middle a.data b.data c.data

theorem truthy_getD_ne {o : JStr} (h : truthy o = true) : o.getD "" ≠ "" := by
  cases o with
  | none => simp [truthy] at h
  | some s => simpa [truthy] using h

theorem resolveClient_ok_elim {env : String → JStr} {fs : String → Bool}
    {res : String → String} {k : String} {v : ClientIn} {c : GqlClientOut}
    (h : resolveClient env fs res k v = .ok c) :
    truthy (mergedHost env k v) = true ∧ c = resolvedConf env fs res k v := by
  unfold resolveClient at h
  by_cases ht : truthy (mergedHost env k v) = true
  · simp [ht] at h
    exact ⟨ht, h.symm⟩
  · simp [ht] at h

theorem resolveClient_eq_ok {env : String → JStr} {fs : String → Bool}
    {res : String → String} {k : String} {v : ClientIn}
    (h : truthy (mergedHost env k v) = true) :
    resolveClient env fs res k v = .ok (resolvedConf env fs res k v) := by
  simp [resolveClient, h]

theorem resolveClients_ok_host {env : String → JStr} {fs : String → Bool}
    {res : String → String} :
    ∀ {clients : List (String × ClientIn)} {l : List (String × ClientIn × GqlClientOut)},
      resolveClients env fs res clients = .ok l → ∀ p ∈ l, p.2.2.host ≠ "" := by
  intro clients
  induction clients with
  | nil =>
    intro l h p hp
    simp [resolveClients] at h
    subst h; simp at hp
  | cons hd rest ih =>
    intro l h p hp
    obtain ⟨k, v⟩ := hd
    unfold resolveClients at h
    cases hc : resolveClient env fs res k v with
    | error e => rw [hc] at h; exact absurd h (by simp)
    | ok c =>
      rw [hc] at h
      cases hr : resolveClients env fs res rest with
      | error e => rw [hr] at h; exact absurd h (by simp)
      | ok tl =>
        rw [hr] at h
        simp at h
        subst h
        rcases List.mem_cons.mp hp with rfl | hmem
        · obtain ⟨ht, hcc⟩ := resolveClient_ok_elim hc
          subst hcc
          exact truthy_getD_ne ht
        · exact ih hr p hmem

/-! ## Claim theorems: configuration resolution -/

/-- C1: Config resolution fails fast on a missing endpoint: a client `k` whose
merged host is falsy makes `setup` throw an error naming `k` (also at the loop
level, where the thrown error names a client whose host is missing); with zero
clients configured, resolution falls back to a single implicit `default`
client driven by `GQL_HOST`, and throws an error naming `GQL_HOST` when the
endpoint is still absent; and every descriptor produced has a non-empty host. -/
theorem C1_missing_host_fails_fast :
    (∀ (env : String → JStr) (fs : String → Bool) (res : String → String) k v,
        truthy (mergedHost env k v) = false →
        resolveClient env fs res k v = Except.error (hostError k) ∧
        strIncludes (hostError k) k = true)
  ∧ (∀ (env : String → JStr) (fs : String → Bool) (res : String → String)
        (clients : List (String × ClientIn)),
        (∃ p ∈ clients, truthy (mergedHost env p.1 p.2) = false) →
        ∃ k v, (k, v) ∈ clients ∧ truthy (mergedHost env k v) = false ∧
          resolveClients env fs res clients = Except.error (hostError k))
  ∧ (∀ (env : String → JStr) (fs : String → Bool) (res : String → String)
        (pubH pubCH : JStr),
        truthy (jsOr (env "GQL_HOST") pubH) = false →
        setupEntries env fs res pubH pubCH [] =
          Except.error "GQL_HOST is not set in public runtimeConfig" ∧
        strIncludes "GQL_HOST is not set in public runtimeConfig" "GQL_HOST" = true)
  ∧ (∀ (env : String → JStr) (fs : String → Bool) (res : String → String)
        (pubH pubCH : JStr),
        truthy (jsOr (env "GQL_HOST") pubH) = true →
        ∃ c, setupEntries env fs res pubH pubCH [] = Except.ok
          [("default",
            implicitDefault ((jsOr (env "GQL_HOST") pubH).getD "")
              (jsOr (env "GQL_CLIENT_HOST") pubCH), c)])
  ∧ (∀ (env : String → JStr) (fs : String → Bool) (res : String → String)
        (pubH pubCH : JStr) (clients : List (String × ClientIn)) l,
        setupEntries env fs res pubH pubCH clients = Except.ok l →
        ∀ p ∈ l, p.2.2.host ≠ "") := by
  refine ⟨?_, ?_, ?_, ?_, ?_⟩
  · intro env fs res k v h
    refine ⟨by simp [resolveClient, h], ?_⟩
    have : hostError k = "GraphQL client (" ++ k ++ ") is missing it's host." := rfl
    rw [this]
    exact strIncludes_middle "GraphQL client (" k ") is missing it's host."
  · intro env fs res clients
    induction clients with
    | nil => intro h; simp at h
    | cons hd rest ih =>
      intro h
      obtain ⟨k, v⟩ := hd
      by_cases hk : truthy (mergedHost env k v) = false
      · refine ⟨k, v, List.mem_cons_self _ _, hk, ?_⟩
        simp [resolveClients, resolveClient, hk]
      · have hk' : truthy (mergedHost env k v) = true := by
          revert hk; cases truthy (mergedHost env k v) <;> simp
        have hrest : ∃ p ∈ rest, truthy (mergedHost env p.1 p.2) = false := by
          rcases h with ⟨p, hp, hfp⟩
          rcases List.mem_cons.mp hp with rfl | hmem
          · rw [hfp] at hk'; exact absurd hk' (by simp)
          · exact ⟨p, hmem, hfp⟩
        rcases ih hrest with ⟨k', v', hmem, hf, herr⟩
        refine ⟨k', v', List.mem_cons_of_mem _ hmem, hf, ?_⟩
        rw [resolveClients, resolveClient_eq_ok hk', herr]
  · intro env fs res pubH pubCH h
    refine ⟨by simp [setupEntries, h], ?_⟩
    have : "GQL_HOST is not set in public runtimeConfig" =
        "" ++ "GQL_HOST" ++ " is not set in public runtimeConfig" := rfl
    rw [this]
    exact strIncludes_middle "" "GQL_HOST" " is not set in public runtimeConfig"
  · intro env fs res pubH pubCH h
    have hm : truthy (mergedHost env "default"
        (implicitDefault ((jsOr (env "GQL_HOST") pubH).getD "")
          (jsOr (env "GQL_CLIENT_HOST") pubCH))) = true := by
      have hkey : envKey "default" "HOST" = "GQL_HOST" := by simp [envKey]
      have huser : userHost (implicitDefault ((jsOr (env "GQL_HOST") pubH).getD "")
          (jsOr (env "GQL_CLIENT_HOST") pubCH)) =
          some ((jsOr (env "GQL_HOST") pubH).getD "") := by
        unfold implicitDefault
        by_cases hch : truthy (jsOr (env "GQL_CLIENT_HOST") pubCH) = true
        · rw [if_pos hch]; rfl
        · rw [if_neg hch]; rfl
      unfold mergedHost
      rw [hkey, huser]
      unfold jsOr at h ⊢
      by_cases he : truthy (env "GQL_HOST") = true
      · simp [he]
      · have he' : truthy (env "GQL_HOST") = false := by
          revert he; cases truthy (env "GQL_HOST") <;> simp
        rw [he'] at h ⊢
        simp at h ⊢
        have := truthy_getD_ne h
        simp [truthy, this]
    refine ⟨resolvedConf env fs res "default"
      (implicitDefault ((jsOr (env "GQL_HOST") pubH).getD "")
        (jsOr (env "GQL_CLIENT_HOST") pubCH)), ?_⟩
    rw [setupEntries]
    simp only [List.isEmpty_nil, if_true]
    rw [if_pos h, resolveClients, resolveClient_eq_ok hm, resolveClients]
  · intro env fs res pubH pubCH clients l h p hp
    unfold setupEntries at h
    by_cases hc : clients.isEmpty = true
    · rw [if_pos hc] at h
      by_cases hh : truthy (jsOr (env "GQL_HOST") pubH) = true
      · rw [if_pos hh] at h
        exact resolveClients_ok_host h p hp
      · rw [if_neg hh] at h; exact absurd h (by simp)
    · rw [if_neg hc] at h
      exact resolveClients_ok_host h p hp

/-- Witness for C1 at concrete inputs: a client `blog` configured as the empty
string with no environment variables fails with the error naming `blog`. -/
theorem C1_missing_host_fails_fast_witness :
    resolveClient (fun _ => none) (fun _ => false) id "blog" (.str "") =
      Except.error (hostError "blog") ∧ strIncludes (hostError "blog") "blog" = true :=
  C1_missing_host_fails_fast.1 (fun _ => none) (fun _ => false) id "blog" (.str "") rfl

/-- C2: For every client `k` and every setting with an environment-variable
form (host, clientHost, token, token name), the client-specific environment
variable (unsuffixed for `default`, else suffixed with the upper-cased client
name) overrides the user's per-client config value, which overrides the module
default (token name `Authorization`, token type `Bearer`); and the resolved
descriptor is built from exactly these merged values. -/
theorem C2_env_precedence :
    (∀ s : String, envKey "default" s = "GQL_" ++ s)
  ∧ (∀ k s : String, k ≠ "default" → envKey k s = "GQL_" ++ jsUpper k ++ "_" ++ s)
  ∧ (∀ (env : String → JStr) k v e, env (envKey k "HOST") = some e → e ≠ "" →
        mergedHost env k v = some e)
  ∧ (∀ (env : String → JStr) k v, truthy (env (envKey k "HOST")) = false →
        mergedHost env k v = userHost v)
  ∧ (∀ (env : String → JStr) k v e, env (envKey k "CLIENT_HOST") = some e → e ≠ "" →
        mergedClientHost env k v = some e)
  ∧ (∀ (env : String → JStr) k v, truthy (env (envKey k "CLIENT_HOST")) = false →
        mergedClientHost env k v = userClientHost v)
  ∧ (∀ (env : String → JStr) k v e, env (envKey k "TOKEN") = some e → e ≠ "" →
        mergedToken env k v = some e)
  ∧ (∀ (env : String → JStr) k v, truthy (env (envKey k "TOKEN")) = false →
        mergedToken env k v = userTokenValue v)
  ∧ (∀ (env : String → JStr) k v e, env (envKey k "TOKEN_NAME") = some e → e ≠ "" →
        mergedTokenName env k v = some e)
  ∧ (∀ (env : String → JStr) k v, truthy (env (envKey k "TOKEN_NAME")) = false →
        truthy (userTokenName v) = true → mergedTokenName env k v = userTokenName v)
  ∧ (∀ (env : String → JStr) k v, truthy (env (envKey k "TOKEN_NAME")) = false →
        truthy (userTokenName v) = false → mergedTokenName env k v = some "Authorization")
  ∧ (∀ o : GqlClientObj, o.token = TokenIn.undef → resolvedTokenType (.obj o) = "Bearer")
  ∧ (∀ (env : String → JStr) (fs : String → Bool) (res : String → String) k v c,
        resolveClient env fs res k v = Except.ok c →
        c.host = (mergedHost env k v).getD "" ∧
        c.clientHost = (if truthy (mergedClientHost env k v) then mergedClientHost env k v
          else userClientHost v) ∧
        c.token.value = (if truthy (mergedToken env k v) then mergedToken env k v else none) ∧
        c.token.name = (if truthy (mergedTokenName env k v) then mergedTokenName env k v
          else none) ∧
        c.token.ty = resolvedTokenType v) := by
  have htr : ∀ (e : String), e ≠ "" → truthy (some e) = true := by
    intro e he; simp [truthy, he]
  refine ⟨?_, ?_, ?_, ?_, ?_, ?_, ?_, ?_, ?_, ?_, ?_, ?_, ?_⟩
  · intro s; simp [envKey]
  · intro k s hk; simp [envKey, hk]
  · intro env k v e h he
    simp [mergedHost, jsOr, h, htr e he]
  · intro env k v h; simp [mergedHost, jsOr, h]
  · intro env k v e h he
    simp [mergedClientHost, jsOr, h, htr e he]
  · intro env k v h; simp [mergedClientHost, jsOr, h]
  · intro env k v e h he
    simp [mergedToken, jsOr, h, htr e he]
  · intro env k v h; simp [mergedToken, jsOr, h]
  · intro env k v e h he
    simp [mergedTokenName, jsOr, h, htr e he]
  · intro env k v h hu; simp [mergedTokenName, jsOr, h, hu]
  · intro env k v h hu; simp [mergedTokenName, jsOr, h, hu]
  · intro o h; simp [resolvedTokenType, h]
  · intro env fs res k v c h
    obtain ⟨_, hc⟩ := resolveClient_ok_elim h
    subst hc
    exact ⟨rfl, rfl, rfl, rfl, rfl⟩

/-- Witness for C2 at concrete inputs: for client `blog`, `GQL_BLOG_HOST`
overrides the host from the user config object. -/
theorem C2_env_precedence_witness :
    mergedHost (fun s => if s = "GQL_BLOG_HOST" then some "https://env.example" else none)
      "blog" (.str "https://user.example") = some "https://env.example" :=
  C2_env_precedence.2.2.1
    (fun s => if s = "GQL_BLOG_HOST" then some "https://env.example" else none)
    "blog" (.str "https://user.example") "https://env.example" (by decide) (by decide)

/-- C6: a discovered file is kept in the operation document set iff its
extension is `.gql` or `.graphql`, its filename does not contain `schema`
(case-insensitively), and its size is non-zero; in particular
`foo.schema.graphql` and a zero-byte `.gql` file are excluded while a
non-empty `queries.graphql` is kept. -/
theorem C6_document_filtering :
    (∀ (cands : List DocFile) (d : DocFile), d ∈ resolveFilesModel cands →
        (d ∈ generateDocuments cands ↔
          ((endsWithC (lastSegment d.path) ".gql"
              || endsWithC (lastSegment d.path) ".graphql") = true ∧
           strIncludes (jsLower (lastSegment d.path)) "schema" = false ∧
           d.size ≠ 0)))
  ∧ generateDocuments
      [⟨"src/foo.schema.graphql", 5⟩, ⟨"src/empty.gql", 0⟩, ⟨"src/queries.graphql", 7⟩]
      = [⟨"src/queries.graphql", 7⟩] := by
  constructor
  · intro cands d hd
    have hpred := (List.mem_filter.mp hd).2
    simp only [Bool.and_eq_true] at hpred
    have h1 := hpred.1
    cases hm : gqlFileMatch d.path with
    | none => rw [hm] at h1; simp at h1
    | some m =>
      have hcond : (endsWithC (lastSegment d.path) ".gql" = true ∧
            (lastSegment d.path).length > 4 ∨
          endsWithC (lastSegment d.path) ".graphql" = true ∧
            (lastSegment d.path).length > 8) ∧ m = lastSegment d.path := by
        unfold gqlFileMatch at hm
        by_cases hc : (endsWithC (lastSegment d.path) ".gql" = true ∧
              (lastSegment d.path).length > 4 ∨
            endsWithC (lastSegment d.path) ".graphql" = true ∧
              (lastSegment d.path).length > 8)
        · rw [if_pos (by simpa using hc)] at hm
          simp only [Option.some.injEq] at hm
          exact ⟨hc, hm.symm⟩
        · rw [if_neg (by simpa using hc)] at hm
          exact absurd hm (by simp)
      have hext : (endsWithC (lastSegment d.path) ".gql"
          || endsWithC (lastSegment d.path) ".graphql") = true := by
        rcases hcond.1 with ⟨h, -⟩ | ⟨h, -⟩ <;> simp [h]
      have hallow : allowDocument d.path d.size =
          (!(strIncludes (jsLower (lastSegment d.path)) "schema") && d.size != 0) := by
        unfold allowDocument
        rw [hm, hcond.2]
      constructor
      · intro hmem
        have hmf := (List.mem_filter.mp hmem).2
        rw [hallow] at hmf
        simp only [Bool.and_eq_true, Bool.not_eq_eq_eq_not, Bool.not_true] at hmf
        refine ⟨hext, by simpa using hmf.1, by simpa using hmf.2⟩
      · rintro ⟨-, hs, hz⟩
        refine List.mem_filter.mpr ⟨hd, ?_⟩
        rw [hallow]
        simp [hs, hz]
  · decide

/-- Witness for C6 at a concrete input: a non-empty `queries.graphql` is kept,
and its keeping is equivalent to the three filter conditions. -/
theorem C6_document_filtering_witness :
    (⟨"src/queries.graphql", 7⟩ : DocFile) ∈
        resolveFilesModel [⟨"src/queries.graphql", 7⟩] ∧
    ((⟨"src/queries.graphql", 7⟩ : DocFile) ∈
        generateDocuments [⟨"src/queries.graphql", 7⟩] ↔
      ((endsWithC (lastSegment "src/queries.graphql") ".gql"
          || endsWithC (lastSegment "src/queries.graphql") ".graphql") = true ∧
       strIncludes (jsLower (lastSegment "src/queries.graphql")) "schema" = false ∧
       (7 : Nat) ≠ 0)) :=
  ⟨by decide, C6_document_filtering.1 [⟨"src/queries.graphql", 7⟩]
    ⟨"src/queries.graphql", 7⟩ (by decide)⟩

/-- C5: dispatch routes an operation to the client whose operation set
contains it: in the two-client scenario, invoking `GetPost` uses the `blog`
client's transport instance (which differs from `default`'s whenever the two
instances differ); and an operation present in no client's set falls back to
the `default` client. -/
theorem C5_operation_routing :
    (∀ instances : String → Nat,
        operationClient [("default", ["GetUser"]), ("blog", ["GetPost"])] "GetPost"
          = "blog" ∧
        dispatchInstance instances
          [("default", ["GetUser"]), ("blog", ["GetPost"])] "GetPost"
          = instances "blog" ∧
        (instances "blog" ≠ instances "default" →
          dispatchInstance instances
            [("default", ["GetUser"]), ("blog", ["GetPost"])] "GetPost"
            ≠ instances "default"))
  ∧ (∀ (ops : List (String × List String)) (operation : String),
        (∀ p ∈ ops, operation ∉ p.2) → operationClient ops operation = "default") := by
  have hblog : operationClient [("default", ["GetUser"]), ("blog", ["GetPost"])] "GetPost"
      = "blog" := by decide
  constructor
  · intro instances
    refine ⟨hblog, ?_, ?_⟩
    · unfold dispatchInstance
      rw [hblog]
    · intro hne
      unfold dispatchInstance
      rw [hblog]
      exact hne
  · intro ops operation hnone
    unfold operationClient
    have hfind : ops.find? (fun p => p.2.contains operation) = none := by
      rw [List.find?_eq_none]
      intro p hp
      simpa using hnone p hp
    rw [hfind]

/-- Witness for C5 at concrete inputs: an operation owned by no client is
routed to the `default` client. -/
theorem C5_operation_routing_witness :
    operationClient [("default", ["GetUser"]), ("blog", ["GetPost"])] "Missing"
      = "default" :=
  C5_operation_routing.2 [("default", ["GetUser"]), ("blog", ["GetPost"])] "Missing"
    (by decide)

/-- C8: the shared error slot is overwritten on every failing response with
the most recent captured error; the registered handler is invoked at most
once per failure (exactly once when one is registered); and registering a
handler while the slot already holds an error replays that error to the new
handler exactly once. -/
theorem C8_error_slot :
    (∀ (st : ErrState) (e : GqlErrorVal), (errStep st (.fail e)).1.slot = some e)
  ∧ (∀ (st : ErrState) (e : GqlErrorVal), ((errStep st (.fail e)).2).length ≤ 1)
  ∧ (∀ (st : ErrState) (e : GqlErrorVal), st.handlerSet = true →
        (errStep st (.fail e)).2 = [e])
  ∧ (∀ (st : ErrState) (e : GqlErrorVal), st.slot = some e →
        (errStep st .register).2 = [e] ∧ (errStep st .register).1.handlerSet = true) := by
  refine ⟨?_, ?_, ?_, ?_⟩
  · intro st e; rfl
  · intro st e
    unfold errStep
    by_cases h : st.handlerSet = true <;> simp [h]
  · intro st e h; simp [errStep, h]
  · intro st e h; simp [errStep, h]

/-- Witness for C8 at concrete inputs: a failure with a handler registered is
delivered once, and registering over a non-empty slot replays the stored
error once. -/
theorem C8_error_slot_witness :
    (errStep ⟨none, true⟩ (.fail ⟨"default", 500, "GetUser", ["boom"]⟩)).2
      = [⟨"default", 500, "GetUser", ["boom"]⟩] ∧
    (errStep ⟨some ⟨"default", 500, "GetUser", ["boom"]⟩, false⟩ .register).2
      = [⟨"default", 500, "GetUser", ["boom"]⟩] :=
  ⟨C8_error_slot.2.2.1 ⟨none, true⟩ ⟨"default", 500, "GetUser", ["boom"]⟩ rfl,
   (C8_error_slot.2.2.2 ⟨some ⟨"default", 500, "GetUser", ["boom"]⟩, false⟩
     ⟨"default", 500, "GetUser", ["boom"]⟩ rfl).1⟩

theorem hlookup_spreadMerge (a b : List (String × String)) (k : String) :
    hlookup k (spreadMerge a b) =
      if (hlookup k b).isSome then hlookup k b else hlookup k a := by
  induction a with
  | nil =>
    simp only [spreadMerge, List.filter_nil, List.nil_append, hlookup]
    cases h : hlookup k b <;> simp [h]
  | cons p t ih =>
    by_cases hpb : (hlookup p.1 b).isNone = true
    · have hsm : spreadMerge (p :: t) b = p :: spreadMerge t b := by
        simp [spreadMerge, List.filter_cons, hpb]
      by_cases hk : k = p.1
      · subst hk
        have hb : hlookup p.1 b = none := by
          cases hx : hlookup p.1 b
          · rfl
          · rw [hx] at hpb; simp at hpb
        rw [hsm]
        simp [hlookup, hb]
      · rw [hsm]
        simp only [hlookup, if_neg hk]
        exact ih
    · have hsm : spreadMerge (p :: t) b = spreadMerge t b := by
        simp [spreadMerge, List.filter_cons, hpb]
      rw [hsm, ih]
      by_cases hk : k = p.1
      · subst hk
        have hb : (hlookup p.1 b).isSome = true := by
          cases hx : hlookup p.1 b
          · rw [hx] at hpb; simp at hpb
          · rfl
        simp [hb]
      · by_cases hs : (hlookup k b).isSome = true
        · simp [hs]
        · simp only [if_neg hs]
          simp [hlookup, hk]

/-- C4: the auth header value is always computed as `${type} ${value}`.trim()
— both in the codegen introspection headers and in the runtime token-set
operation — so an empty scheme yields the bare (trimmed) token; and a
falsy runtime token unsets the auth header key instead of writing a blank
value. -/
theorem C4_auth_header_trim :
    (∀ (v : GqlClientOut) (tv : String), v.token.value = some tv → tv ≠ "" →
        authHeaderValue v.token.ty tv ≠ "" →
        hlookup (v.token.name.getD "undefined") (introspectionHeaders v) =
          some (authHeaderValue v.token.ty tv))
  ∧ (∀ ty value : String, authHeaderValue ty value = jsTrim (ty ++ " " ++ value))
  ∧ (∀ value : String, authHeaderValue "" value = jsTrim value)
  ∧ (∀ (clientTok : Option TokenOut) (cfg : GqlTokenConfigIn) (tok : JStr),
        truthy tok = true →
        (useGqlToken clientTok cfg tok).2 =
          some (authHeaderValue (effectiveAuth clientTok cfg).2 (tok.getD "")))
  ∧ (∀ (clientTok : Option TokenOut) (cfg : GqlTokenConfigIn) (tok : JStr),
        truthy tok = false → (useGqlToken clientTok cfg tok).2 = none) := by
  refine ⟨?_, ?_, ?_, ?_, ?_⟩
  · intro v tv hv htv hne
    have htruthy : truthy v.token.value = true := by rw [hv]; simp [truthy, htv]
    have hentry : tokenHeaderEntry v =
        [(v.token.name.getD "undefined", authHeaderValue v.token.ty tv)] := by
      unfold tokenHeaderEntry
      rw [if_pos htruthy, hv]
      simp only [Option.getD_some]
      rw [if_neg hne]
    unfold introspectionHeaders
    rw [hentry, hlookup_spreadMerge]
    simp [hlookup]
  · intro ty value; rfl
  · intro value
    unfold authHeaderValue jsTrim
    have hd : ("" ++ " " ++ value).data = ' ' :: value.data := by
      rw [String.data_append, String.data_append]
      rfl
    rw [hd]
    have hdrop : (' ' :: value.data).dropWhile isJsWS = value.data.dropWhile isJsWS := by
      rw [List.dropWhile_cons]
      simp [isJsWS]
    rw [hdrop]
  · intro ct cfg tok h; simp [useGqlToken, authHeaderValue, h]
  · intro ct cfg tok h; simp [useGqlToken, h]

/-- Witness for C4 at concrete inputs: a client with scheme `Bearer`, token
`tok`, static and server-only headers gets introspection auth header
`Bearer tok`; a falsy runtime token unsets the header key. -/
theorem C4_auth_header_trim_witness :
    hlookup "Authorization" (introspectionHeaders
      { host := "https://api.example", clientHost := none, schema := none,
        token := { value := some "tok", name := some "Authorization", ty := "Bearer" },
        retainToken := false, proxyCookies := true,
        headers := some { base := [("X-A", "1")], serverOnly := some [("X-S", "2")] } })
      = some "Bearer tok" ∧
    (useGqlToken none {} none).2 = none := by
  constructor
  · have h := C4_auth_header_trim.1
      { host := "https://api.example", clientHost := none, schema := none,
        token := { value := some "tok", name := some "Authorization", ty := "Bearer" },
        retainToken := false, proxyCookies := true,
        headers := some { base := [("X-A", "1")], serverOnly := some [("X-S", "2")] } }
      "tok" rfl (by decide) (by decide)
    simpa using h
  · exact C4_auth_header_trim.2.2.2.2 none {} none rfl

/-- C7: during schema stitching, a client whose schema source is not a remote
URL and whose declared local schema fails to load raises the explicit
`Unable to load local schema file: ...` error naming the entry, aborting the
whole resolution pass; a successful pass has one subschema per client and
every non-remote client's local schema actually loaded — no client is
silently skipped and no partial stitched schema is produced. -/
theorem C7_local_schema_failure_fatal :
    (∀ (introspect : String → List (String × String) → GSchema)
        (loadLocal : SchemaIn → Option GSchema) (wp : Bool) (k : String)
        (v : SchemaIn) (rest : List (String × SchemaIn)),
        isRemoteUrl (schemaInHost v) = false → loadLocal v = none →
        prepareSchemas introspect loadLocal wp ((k, v) :: rest) =
          Except.error ("Unable to load local schema file: " ++ schemaInText v))
  ∧ (∀ (introspect : String → List (String × String) → GSchema)
        (loadLocal : SchemaIn → Option GSchema) (wp : Bool)
        (L : List (String × SchemaIn)) (out : List GSchema),
        prepareSchemas introspect loadLocal wp L = Except.ok out →
        out.length = L.length ∧
        ∀ p ∈ L, isRemoteUrl (schemaInHost p.2) = false →
          (loadLocal p.2).isSome = true) := by
  constructor
  · intro intr load wp k v rest hl hn
    unfold prepareSchemas
    rw [if_neg (by simp [hl]), hn]
  · intro intr load wp L
    induction L with
    | nil =>
      intro out h
      simp only [prepareSchemas, Except.ok.injEq] at h
      subst h
      simp
    | cons hd rest ih =>
      intro out h
      obtain ⟨k, v⟩ := hd
      unfold prepareSchemas at h
      by_cases hr : isRemoteUrl (schemaInHost v) = true
      · rw [if_pos hr] at h
        cases hrest : prepareSchemas intr load wp rest with
        | error e => rw [hrest] at h; exact absurd h (by simp)
        | ok tl =>
          rw [hrest] at h
          simp only [Except.ok.injEq] at h
          subst h
          obtain ⟨hlen, hall⟩ := ih tl hrest
          refine ⟨by simp [hlen], ?_⟩
          intro p hp hploc
          rcases List.mem_cons.mp hp with rfl | hmem
          · rw [hr] at hploc
            exact absurd hploc (by simp)
          · exact hall p hmem hploc
      · rw [if_neg hr] at h
        cases hload : load v with
        | none => rw [hload] at h; exact absurd h (by simp)
        | some base =>
          rw [hload] at h
          cases hrest : prepareSchemas intr load wp rest with
          | error e => rw [hrest] at h; exact absurd h (by simp)
          | ok tl =>
            rw [hrest] at h
            simp only [Except.ok.injEq] at h
            subst h
            obtain ⟨hlen, hall⟩ := ih tl hrest
            refine ⟨by simp [hlen], ?_⟩
            intro p hp hploc
            rcases List.mem_cons.mp hp with rfl | hmem
            · rw [hload]; rfl
            · exact hall p hmem hploc

/-- Witness for C7 at concrete inputs: a non-URL schema entry whose load
fails produces the explicit error naming the file. -/
theorem C7_local_schema_failure_fatal_witness :
    prepareSchemas (fun _ _ => []) (fun _ => none) true
        [("default", SchemaIn.str "schema.graphql")] =
      Except.error ("Unable to load local schema file: "
        ++ schemaInText (SchemaIn.str "schema.graphql")) :=
  C7_local_schema_failure_fatal.1 (fun _ _ => []) (fun _ => none) true "default"
    (SchemaIn.str "schema.graphql") [] (by decide) rfl

theorem uscoreSplit : ∀ (l1 l2 r1 r2 : List Char), '_' ∉ l1 → '_' ∉ l2 →
    l1 ++ '_' :: r1 = l2 ++ '_' :: r2 → l1 = l2 ∧ r1 = r2 := by
  intro l1
  induction l1 with
  | nil =>
    intro l2 r1 r2 h1 h2 h
    cases l2 with
    | nil => exact ⟨rfl, by simpa using h⟩
    | cons d t2 =>
      simp only [List.nil_append, List.cons_append, List.cons.injEq] at h
      refine absurd ?_ h2
      rw [h.1]
      exact List.mem_cons_self _ _
  | cons c t1 ih =>
    intro l2 r1 r2 h1 h2 h
    cases l2 with
    | nil =>
      simp only [List.cons_append, List.nil_append, List.cons.injEq] at h
      refine absurd ?_ h1
      rw [← h.1]
      exact List.mem_cons_self _ _
    | cons d t2 =>
      simp only [List.cons_append, List.cons.injEq] at h
      have ht := ih t2 r1 r2 (fun hm => h1 (List.mem_cons_of_mem _ hm))
        (fun hm => h2 (List.mem_cons_of_mem _ hm)) h.2
      exact ⟨by rw [h.1, ht.1], ht.2⟩

theorem stitchPrint_cons (s : GSchema) (tl : List GSchema) :
    stitchPrint (s :: tl) = s ++ stitchPrint tl := by
  simp [stitchPrint]

/-- C9 counterexample: with root-field prefixing, the prefixed names of the
distinct clients `a` (root field `b_c`) and `a_b` (root field `c`) collide —
the stitched result carries `a_b_c` for both — so "the prefixed names of
distinct clients never collide" is false as stated. -/
theorem C9_counterexample :
    prepareSchemas (fun _ _ => [])
        (fun v => if v = SchemaIn.str "s1" then some ["b_c"]
          else if v = SchemaIn.str "s2" then some ["c"] else none) true
        [("a", SchemaIn.str "s1"), ("a_b", SchemaIn.str "s2")]
      = Except.ok [["a_b_c"], ["a_b_c"]]
    ∧ prefixField "a" "b_c" = prefixField "a_b" "c"
    ∧ "a" ≠ "a_b" := by
  refine ⟨rfl, rfl, by decide⟩

/-- C9 (amended): with root-field prefixing enabled, every root field `f` of
every client `k`'s schema appears in the printed stitched schema as `k_f`;
and the prefixed names of distinct clients never collide **provided the
client names contain no underscore** (with underscores, collisions such as
clients `a`/`a_b` are possible, see the counterexample). -/
theorem C9_stitching_roundtrip :
    (∀ (introspect : String → List (String × String) → GSchema)
        (loadLocal : SchemaIn → Option GSchema)
        (L : List (String × SchemaIn)) (out : List GSchema),
        prepareSchemas introspect loadLocal true L = Except.ok out →
        ∀ p ∈ L, ∀ f ∈ schemaBase introspect loadLocal p.2,
          prefixField p.1 f ∈ stitchPrint out)
  ∧ (∀ k1 k2 f1 f2 : String, '_' ∉ k1.data → '_' ∉ k2.data → k1 ≠ k2 →
        prefixField k1 f1 ≠ prefixField k2 f2) := by
  constructor
  · intro intr load L
    induction L with
    | nil => intro out h p hp; exact absurd hp (by simp)
    | cons hd rest ih =>
      intro out h p hp f hf
      obtain ⟨k, v⟩ := hd
      unfold prepareSchemas at h
      by_cases hr : isRemoteUrl (schemaInHost v) = true
      · rw [if_pos hr] at h
        cases hrest : prepareSchemas intr load true rest with
        | error e => rw [hrest] at h; exact absurd h (by simp)
        | ok tl =>
          rw [hrest] at h
          simp only [Except.ok.injEq] at h
          subst h
          rw [stitchPrint_cons]
          rcases List.mem_cons.mp hp with rfl | hmem
          · refine List.mem_append.mpr (Or.inl ?_)
            have hf' : f ∈ schemaBase intr load v := hf
            have hbase : schemaBase intr load v =
                intr (schemaInHost v) (schemaInHeaders v) := by
              unfold schemaBase
              rw [if_pos hr]
            rw [hbase] at hf'
            show prefixField k f ∈ applyTransforms true k
              (intr (schemaInHost v) (schemaInHeaders v))
            unfold applyTransforms
            rw [if_pos rfl]
            exact List.mem_map_of_mem _ hf'
          · exact List.mem_append.mpr (Or.inr (ih tl hrest p hmem f hf))
      · rw [if_neg hr] at h
        cases hload : load v with
        | none => rw [hload] at h; exact absurd h (by simp)
        | some base =>
          rw [hload] at h
          cases hrest : prepareSchemas intr load true rest with
          | error e => rw [hrest] at h; exact absurd h (by simp)
          | ok tl =>
            rw [hrest] at h
            simp only [Except.ok.injEq] at h
            subst h
            rw [stitchPrint_cons]
            rcases List.mem_cons.mp hp with rfl | hmem
            · refine List.mem_append.mpr (Or.inl ?_)
              have hf' : f ∈ schemaBase intr load v := hf
              have hbase : schemaBase intr load v = base := by
                unfold schemaBase
                rw [if_neg hr, hload]
                rfl
              rw [hbase] at hf'
              show prefixField k f ∈ applyTransforms true k base
              unfold applyTransforms
              rw [if_pos rfl]
              exact List.mem_map_of_mem _ hf'
            · exact List.mem_append.mpr (Or.inr (ih tl hrest p hmem f hf))
  · intro k1 k2 f1 f2 h1 h2 hne h
    have hd : k1.data ++ '_' :: f1.data = k2.data ++ '_' :: f2.data := by
      have h' := congrArg String.data h
      unfold prefixField at h'
      rw [String.data_append, String.data_append, String.data_append,
        String.data_append] at h'
      simpa [List.append_assoc] using h'
    have hsplit := uscoreSplit k1.data k2.data f1.data f2.data h1 h2 hd
    exact hne (String.ext hsplit.1)

/-- Witness for C9 at concrete inputs: two underscore-free clients `a` and
`b`, each with one root field, stitch to a schema containing `a_f` and `b_g`,
and their prefixed names cannot collide. -/
theorem C9_stitching_roundtrip_witness :
    prefixField "a" "f" ∈ stitchPrint [["a_f"], ["b_g"]] ∧
    prefixField "a" "f" ≠ prefixField "b" "g" :=
  ⟨C9_stitching_roundtrip.1 (fun _ _ => [])
      (fun v => if v = SchemaIn.str "s1" then some ["f"]
        else if v = SchemaIn.str "s2" then some ["g"] else none)
      [("a", SchemaIn.str "s1"), ("b", SchemaIn.str "s2")] [["a_f"], ["b_g"]]
      rfl ("a", SchemaIn.str "s1") (by decide) "f" (by decide),
   C9_stitching_roundtrip.2 "a" "b" "f" "g" (by decide) (by decide) (by decide)⟩

/-- C10 counterexample: a client entry carrying a `serverOnly` sub-mapping
**and** a declared `schema` returns from `prepareConfig`'s first branch
untouched — its `serverOnly` sub-mapping is *not* deleted — so "for every
client entry with a `serverOnly` headers sub-mapping, prepareConfig deletes
that sub-mapping" is false as stated. -/
theorem C10_counterexample :
    prepareConfig [("default",
      { host := "https://api.example", clientHost := none,
        schema := some "local.graphql",
        token := { value := none, name := some "Authorization", ty := "Bearer" },
        retainToken := false, proxyCookies := true,
        headers := some { base := [], serverOnly := some [("X-S", "2")] } })]
    = ([SchemaIn.str "local.graphql"],
       [("default",
        { host := "https://api.example", clientHost := none,
          schema := some "local.graphql",
          token := { value := none, name := some "Authorization", ty := "Bearer" },
          retainToken := false, proxyCookies := true,
          headers := some { base := [], serverOnly := some [("X-S", "2")] } })]) := by
  rfl

/-- C10 (amended): `prepareConfig` is not side-effect-free on its input — the
output clients map is the input mapped through the per-client pass; every
client entry **that reaches the header-building branch** (no truthy `schema`)
with a `serverOnly` sub-mapping has that sub-mapping deleted from the shared
per-client config object in place, leaving a client configuration different
from the input (a second generation pass sees the server-only headers gone);
and in the stitching variant a client with a truthy `schema` has its `schema`
field overwritten with the resolved path. (A client with both a declared
schema and `serverOnly` headers returns early un-mutated, see the
counterexample.) -/
theorem C10_prepareConfig_mutates :
    (∀ clients : List (String × GqlClientOut),
        (prepareConfig clients).2 =
          clients.map (fun p => (p.1, (prepareClientSchema p.2).2)))
  ∧ (∀ (v : GqlClientOut) (b so : List (String × String)),
        truthy v.schema = false →
        v.headers = some { base := b, serverOnly := some so } →
        (prepareClientSchema v).2.headers = some { base := b, serverOnly := none } ∧
        (prepareClientSchema v).2 ≠ v)
  ∧ (∀ (resolve : String → String) (v : GqlClientOut), truthy v.schema = true →
        (prepareClientSchemaStitch resolve v).2.schema =
          some (resolve (v.schema.getD ""))) := by
  refine ⟨?_, ?_, ?_⟩
  · intro clients
    induction clients with
    | nil => rfl
    | cons hd rest ih => simp [prepareConfig, ih]
  · intro v b so hs hh
    have hbranch : prepareClientSchema v =
        (.hostHeaders v.host (introspectionHeaders v), deleteServerOnly v) := by
      unfold prepareClientSchema
      rw [if_neg (by simp [hs]), if_neg (by simp [hh])]
    constructor
    · rw [hbranch]
      simp [deleteServerOnly, hh]
    · rw [hbranch]
      intro heq
      have hhd := congrArg GqlClientOut.headers heq
      rw [hh] at hhd
      simp [deleteServerOnly, hh] at hhd
  · intro resolve v hs
    unfold prepareClientSchemaStitch
    rw [if_pos hs]

/-- Witness for C10 at concrete inputs: a schema-less client with a
`serverOnly` sub-mapping comes out of the pass with the sub-mapping deleted
and therefore differs from its input. -/
theorem C10_prepareConfig_mutates_witness :
    (prepareClientSchema
      { host := "https://api.example", clientHost := none, schema := none,
        token := { value := none, name := some "Authorization", ty := "Bearer" },
        retainToken := false, proxyCookies := true,
        headers := some { base := [("A", "1")], serverOnly := some [("X-S", "2")] } }).2.headers
      = some { base := [("A", "1")], serverOnly := none } ∧
    (prepareClientSchema
      { host := "https://api.example", clientHost := none, schema := none,
        token := { value := none, name := some "Authorization", ty := "Bearer" },
        retainToken := false, proxyCookies := true,
        headers := some { base := [("A", "1")], serverOnly := some [("X-S", "2")] } }).2
      ≠ ({ host := "https://api.example", clientHost := none, schema := none,
           token := { value := none, name := some "Authorization", ty := "Bearer" },
           retainToken := false, proxyCookies := true,
           headers := some { base := [("A", "1")], serverOnly := some [("X-S", "2")] } }
         : GqlClientOut) :=
  C10_prepareConfig_mutates.2.1
    { host := "https://api.example", clientHost := none, schema := none,
      token := { value := none, name := some "Authorization", ty := "Bearer" },
      retainToken := false, proxyCookies := true,
      headers := some { base := [("A", "1")], serverOnly := some [("X-S", "2")] } }
    [("A", "1")] [("X-S", "2")] rfl rfl

theorem spreadMerge_nil (a : List (String × String)) : spreadMerge a [] = a := by
  simp [spreadMerge, hlookup]

/-- C3 counterexample: after `setup`, the client-exposed public runtime config
of a client with a `serverOnly` sub-mapping still contains that sub-mapping
(module.ts line 104 copies the whole `conf`, headers included, into
`runtimeConfig.public`), so "the entries never appear in the client-exposed
configuration object after resolution" is false as stated. -/
theorem C3_counterexample :
    publicClients (fun _ => none) (fun _ => false) id none none
        [("default", ClientIn.obj { host := some "https://api.example",
                                    headers := some { base := [], serverOnly := some [("X-Secret", "s")] } })]
      = Except.ok [("default",
          { host := "https://api.example", clientHost := none, schema := none,
            token := { value := none, name := some "Authorization", ty := "Bearer" },
            retainToken := false, proxyCookies := true,
            headers := some { base := [], serverOnly := some [("X-Secret", "s")] } })]
    ∧ some [("X-Secret", "s")] ≠ (none : Option (List (String × String))) := by
  exact ⟨rfl, by simp⟩

/-- C3 (amended): `serverOnly` header entries *do* remain in the client-exposed
public runtime config after resolution; however they are merged into applied
headers only on the server-context paths — the codegen introspection headers
(where the sub-mapping is simultaneously deleted from the per-client config)
and the server-side `useGqlHeaders` respect-defaults application (which also
deletes the sub-mapping from the config object it read) — while the
client-side respect-defaults application re-applies only the base headers. -/
theorem C3_server_only_headers :
    (∀ (v : GqlClientOut) (b so : List (String × String)) (key val : String),
        truthy v.schema = false →
        v.headers = some { base := b, serverOnly := some so } →
        hlookup key so = some val → hlookup key (tokenHeaderEntry v) = none →
        hlookup key (introspectionHeaders v) = some val ∧
        (prepareClientSchema v).2.headers = some { base := b, serverOnly := none })
  ∧ (∀ h : Headers,
        (useGqlHeadersDefaults false (some h)).1 = h.base ∧
        (useGqlHeadersDefaults false (some h)).2 = some { h with serverOnly := none })
  ∧ (∀ (b so : List (String × String)) (key val : String),
        hlookup key so = some val →
        hlookup key (useGqlHeadersDefaults true
          (some { base := b, serverOnly := some so })).1 = some val) := by
  refine ⟨?_, ?_, ?_⟩
  · intro v b so key val hs hh hkey htok
    constructor
    · unfold introspectionHeaders
      rw [hlookup_spreadMerge, htok]
      simp only [Option.isSome_none, Bool.false_eq_true, if_false]
      rw [hh]
      simp only [Option.getD_some]
      rw [hlookup_spreadMerge, hkey]
      rfl
    · have hbranch : prepareClientSchema v =
          (.hostHeaders v.host (introspectionHeaders v), deleteServerOnly v) := by
        unfold prepareClientSchema
        rw [if_neg (by simp [hs]), if_neg (by simp [hh])]
      rw [hbranch]
      simp [deleteServerOnly, hh]
  · intro h
    exact ⟨spreadMerge_nil h.base, rfl⟩
  · intro b so key val hkey
    show hlookup key (spreadMerge b ((some so).getD [])) = some val
    simp only [Option.getD_some]
    rw [hlookup_spreadMerge, hkey]
    rfl

/-- Witness for C3 (amended) at concrete inputs: the `serverOnly` entry
`X-Secret` lands in the codegen introspection headers and the per-client
config loses the sub-mapping; the client-side respect-defaults application
yields only the base headers. -/
theorem C3_server_only_headers_witness :
    (hlookup "X-Secret" (introspectionHeaders
        { host := "https://api.example", clientHost := none, schema := none,
          token := { value := none, name := some "Authorization", ty := "Bearer" },
          retainToken := false, proxyCookies := true,
          headers := some { base := [("A", "1")],
                            serverOnly := some [("X-Secret", "s")] } })
      = some "s" ∧
    (prepareClientSchema
        { host := "https://api.example", clientHost := none, schema := none,
          token := { value := none, name := some "Authorization", ty := "Bearer" },
          retainToken := false, proxyCookies := true,
          headers := some { base := [("A", "1")],
                            serverOnly := some [("X-Secret", "s")] } }).2.headers
      = some { base := [("A", "1")], serverOnly := none }) ∧
    (useGqlHeadersDefaults false
        (some { base := [("A", "1")], serverOnly := some [("X-Secret", "s")] })).1
      = [("A", "1")] :=
  ⟨C3_server_only_headers.1
      { host := "https://api.example", clientHost := none, schema := none,
        token := { value := none, name := some "Authorization", ty := "Bearer" },
        retainToken := false, proxyCookies := true,
        headers := some { base := [("A", "1")],
                          serverOnly := some [("X-Secret", "s")] } }
      [("A", "1")] [("X-Secret", "s")] "X-Secret" "s" rfl rfl rfl rfl,
   (C3_server_only_headers.2.1
      { base := [("A", "1")], serverOnly := some [("X-Secret", "s")] }).1⟩

end NuxtGql
